import Mathlib

/-!
# Verification of the BMS inventory core (src/script.js)

A shallow embedding of the synchronization and ownership-isolation engine
of the business-management system: the local cache (localStorage tables),
the ownership-filtered read path, the domain operations (register,
addStock, processSale), cache initialization, and the cloud sync engine
(syncDown / pushRecord).

JavaScript numbers are modelled exactly: integer quantities as Int
(the code routes them through parseInt) and monetary values as Rat
(price, cost, total, amount).  Timestamps (Date.now, toISOString) are
abstracted by an explicit `now : Nat` parameter feeding the generated
ids and dates; no claim depends on their concrete shape.
-/

namespace BMS

/-- A tenant record, one row of the `ims_users` table. -/
structure User where
  id : String
  companyName : String
  username : String
  contactPerson : String
  password : String
  role : String
  status : String
deriving DecidableEq, Repr

/-- `ROLES.ADMIN` from script.js. -/
def ROLE_ADMIN : String := "Admin"

/-- `ROLES.USER` from script.js. -/
def ROLE_USER : String := "User"

/-- The built-in privileged tenant `INITIAL_ADMIN` from script.js. -/
def INITIAL_ADMIN : User :=
  { id := "admin_001"
    companyName := "Admin"
    username := "Admin"
    contactPerson := "Admin"
    password := "admin123"
    role := ROLE_ADMIN
    status := "Approved" }

/-- One row of the `ims_inventory` table. -/
structure InvItem where
  id : String
  owner : String
  itemName : String
  quantity : Int
  avgCost : ℚ
deriving DecidableEq, Repr

/-- One row of the `ims_sales` ledger. -/
structure Sale where
  id : String
  owner : String
  date : String
  itemName : String
  quantity : Int
  price : ℚ
  total : ℚ
deriving DecidableEq, Repr

/-- One row of the `ims_purchases` ledger. -/
structure Purchase where
  id : String
  owner : String
  date : String
  vendor : String
  category : String
  brand : String
  model : String
  itemName : String
  quantity : Int
  cost : ℚ
  paymentType : String
deriving DecidableEq, Repr

/-- One row of the `ims_expenses` ledger. -/
structure Expense where
  id : String
  owner : String
  name : String
  amount : ℚ
  date : String
deriving DecidableEq, Repr

/-- The local cache: one field per localStorage key used by script.js
(`ims_users`, `ims_inventory`, `ims_sales`, `ims_purchases`,
`ims_expenses`, `ims_current_user`, the two banner values and the
configured cloud URL). -/
structure Cache where
  users : List User
  inventory : List InvItem
  sales : List Sale
  purchases : List Purchase
  expenses : List Expense
  currentUser : Option User
  banner : String
  verticalBanner : String
  cloudUrl : String
deriving DecidableEq, Repr

/-- A `{success, message}` result object as returned by the domain
operations and the sync engine (a missing `message` is modelled as ""). -/
structure OpResult where
  success : Bool
  message : String
deriving DecidableEq, Repr

/-- JS `String.prototype.toLowerCase`, modelled character by character
(kernel-computable, unlike the position-recursive String.map). -/
def lowerStr (s : String) : String := ⟨s.data.map Char.toLower⟩

/-- `BMS_Core.getInventory`: admin sees nothing, a logged-in tenant sees
exactly the rows whose `owner` equals their username (exact match). -/
def getInventory (c : Cache) : List InvItem :=
  match c.currentUser with
  | none => []
  | some user =>
      if user.role == ROLE_ADMIN then []
      else c.inventory.filter (fun i => i.owner == user.username)

/-- `BMS_Core.getSales`. -/
def getSales (c : Cache) : List Sale :=
  match c.currentUser with
  | none => []
  | some user =>
      if user.role == ROLE_ADMIN then []
      else c.sales.filter (fun s => s.owner == user.username)

/-- `BMS_Core.getPurchases`. -/
def getPurchases (c : Cache) : List Purchase :=
  match c.currentUser with
  | none => []
  | some user =>
      if user.role == ROLE_ADMIN then []
      else c.purchases.filter (fun p => p.owner == user.username)

/-- `BMS_Core.getExpenses`. -/
def getExpenses (c : Cache) : List Expense :=
  match c.currentUser with
  | none => []
  | some user =>
      if user.role == ROLE_ADMIN then []
      else c.expenses.filter (fun e => e.owner == user.username)

/-- The result record of `getFinancialSummary`. -/
structure FinancialSummary where
  totalSales : ℚ
  totalExpenses : ℚ
  netProfit : ℚ
deriving DecidableEq, Repr

/-- `BMS_Core.getFinancialSummary`: reduces the ownership-filtered sales
and expenses with `reduce((sum, x) => sum + field, 0)`. -/
def getFinancialSummary (c : Cache) : FinancialSummary :=
  let sales := getSales c
  let expenses := getExpenses c
  let totalSales := sales.foldl (fun sum s => sum + s.total) 0
  let totalExpenses := expenses.foldl (fun sum e => sum + e.amount) 0
  { totalSales := totalSales
    totalExpenses := totalExpenses
    netProfit := totalSales - totalExpenses }

/-- The inventory lookup predicate used by `addStock` and `processSale`:
exact owner match, case-insensitive item-name match
(`i.owner === user.username && i.itemName.toLowerCase() === itemName.toLowerCase()`). -/
def invMatch (username itemName : String) (i : InvItem) : Bool :=
  i.owner == username && lowerStr i.itemName == lowerStr itemName

/-- JS `Array.prototype.find` followed by an in-place mutation of the
found element: rewrite the first element satisfying `p` with `f`. -/
def updateFirst (p : α → Bool) (f : α → α) : List α → List α
  | [] => []
  | x :: xs => if p x then f x :: xs else x :: updateFirst p f xs

/-- `BMS_Core.addStock`: always appends one purchase record; then either
increments the first inventory row matching (owner, itemName) or appends
a fresh row with the given quantity and cost.  Returns `false` (cache
untouched) when nobody is logged in. -/
def addStock (c : Cache) (vendor category brand model : String)
    (quantity : Int) (cost : ℚ) (paymentType : String) (now : Nat) :
    Cache × Bool :=
  match c.currentUser with
  | none => (c, false)
  | some user =>
      let itemName := brand ++ " " ++ model
      let newPurchase : Purchase :=
        { id := "pur_" ++ toString now
          owner := user.username
          date := toString now
          vendor := vendor
          category := category
          brand := brand
          model := model
          itemName := itemName
          quantity := quantity
          cost := cost
          paymentType := paymentType }
      let newInventory :=
        match c.inventory.find? (invMatch user.username itemName) with
        | some _ =>
            updateFirst (invMatch user.username itemName)
              (fun i => { i with quantity := i.quantity + quantity }) c.inventory
        | none =>
            c.inventory ++
              [{ id := "inv_" ++ toString now
                 owner := user.username
                 itemName := itemName
                 quantity := quantity
                 avgCost := cost }]
      ({ c with purchases := c.purchases ++ [newPurchase]
                inventory := newInventory }, true)

/-- `BMS_Core.processSale`: rejects with "Insufficient Stock" when no
matching row exists or the requested quantity exceeds its stock;
otherwise decrements the first matching row and appends one sale record
with `total = quantity * price`. -/
def processSale (c : Cache) (itemName : String) (quantity : Int)
    (price : ℚ) (now : Nat) : Cache × OpResult :=
  match c.currentUser with
  | none => (c, { success := false, message := "Not logged in" })
  | some user =>
      match c.inventory.find? (invMatch user.username itemName) with
      | none => (c, { success := false, message := "Insufficient Stock" })
      | some item =>
          if item.quantity < quantity then
            (c, { success := false, message := "Insufficient Stock" })
          else
            let newInventory :=
              updateFirst (invMatch user.username itemName)
                (fun i => { i with quantity := i.quantity - quantity }) c.inventory
            let newSale : Sale :=
              { id := "sale_" ++ toString now
                owner := user.username
                date := toString now
                itemName := itemName
                quantity := quantity
                price := price
                total := quantity * price }
            ({ c with inventory := newInventory
                      sales := c.sales ++ [newSale] },
             { success := true, message := "" })

/-- `BMS_Core.register`: rejects a company name equal (case-insensitively)
to an existing username, otherwise appends one Pending User tenant. -/
def register (c : Cache) (companyName contactPerson password : String)
    (now : Nat) : Cache × OpResult :=
  match c.users.find? (fun u => lowerStr u.username == lowerStr companyName) with
  | some _ => (c, { success := false, message := "Company Name already registered" })
  | none =>
      let newUser : User :=
        { id := "user_" ++ toString now
          companyName := companyName
          username := companyName
          contactPerson := contactPerson
          password := password
          role := ROLE_USER
          status := "Pending" }
      ({ c with users := c.users ++ [newUser] },
       { success := true, message := "Registration successful! Wait for Admin approval." })

/-- The users-table part of `BMS_Core.initStorage`: drop every stored
`admin_001` row and unshift a fresh copy of `INITIAL_ADMIN`. -/
def initUsers (stored : List User) : List User :=
  INITIAL_ADMIN :: stored.filter (fun u => u.id != "admin_001")

/-- `BMS_Core.initStorage` on the cache.  The other tables are only
defaulted to `[]` when absent; in this embedding every table is always
present, so only the users table changes. -/
def initStorage (c : Cache) : Cache :=
  { c with users := initUsers c.users }

/-- A remote JSON field for a record table: absent, present but not an
array, or an array of decoded records. -/
inductive RValue (α : Type) where
  | missing : RValue α
  | nonArray : RValue α
  | arr : List α → RValue α
deriving DecidableEq, Repr

/-- The `data` object of a successful cloud pull (`json.data`). -/
structure Snapshot where
  ims_users : RValue User
  ims_inventory : RValue InvItem
  ims_sales : RValue Sale
  ims_purchases : RValue Purchase
  ims_expenses : RValue Expense
  ims_banner : Option String
  ims_vertical_banner : Option String
deriving DecidableEq, Repr

/-- What a fetch of the cloud URL can come back as: a success body, an
error body (`result !== 'success'`), or a thrown transport error. -/
inductive RemoteResponse where
  | success : Snapshot → RemoteResponse
  | error : String → RemoteResponse
  | unreachable : String → RemoteResponse
deriving DecidableEq, Repr

/-- `saveIfValid` from `BMS_Cloud.syncDown`: overwrite the local table
only when the remote value is a non-empty array. -/
def saveIfValid (cur : List α) (val : RValue α) : List α :=
  match val with
  | .arr xs => if xs.length > 0 then xs else cur
  | _ => cur

/-- The banner branch of `syncDown`: `if (data.ims_banner) setItem(...)`
(a missing or empty string is falsy and leaves the local value). -/
def saveBanner (cur : String) (val : Option String) : String :=
  match val with
  | some s => if s = "" then cur else s
  | none => cur

/-- `BMS_Cloud.syncDown`, with the fetch outcome passed in explicitly:
short-circuits when no cloud URL is configured, merges a success body
table-by-table through `saveIfValid`, leaves the cache alone on an error
body or a transport failure. -/
def syncDown (c : Cache) (resp : RemoteResponse) : Cache × OpResult :=
  if c.cloudUrl = "" then
    (c, { success := false, message := "No Cloud URL configured" })
  else
    match resp with
    | .success data =>
        ({ c with
            users := saveIfValid c.users data.ims_users
            inventory := saveIfValid c.inventory data.ims_inventory
            sales := saveIfValid c.sales data.ims_sales
            purchases := saveIfValid c.purchases data.ims_purchases
            expenses := saveIfValid c.expenses data.ims_expenses
            banner := saveBanner c.banner data.ims_banner
            verticalBanner := saveBanner c.verticalBanner data.ims_vertical_banner },
         { success := true, message := "Data synced from Cloud" })
    | .error e => (c, { success := false, message := "Cloud Error: " ++ e })
    | .unreachable e => (c, { success := false, message := "Network/Sync Error: " ++ e })

/-- The POST body `{action: 'save_record', key, ...}` of a cloud push. -/
structure PushRequest where
  action : String
  key : String
deriving DecidableEq, Repr

/-- `BMS_Cloud.pushRecord`: fire-and-forget.  It never touches the cache;
the issued HTTP request (if any) is returned as an `Option` so that the
no-URL no-op case is observable. -/
def pushRecord (c : Cache) (key : String) : Cache × Option PushRequest :=
  if c.cloudUrl = "" then (c, none)
  else (c, some { action := "save_record", key := key })

/-- The Ownership Filter as the specification words it (section 4.2):
empty when no tenant is active or the active tenant is privileged,
otherwise the subsequence whose owner equals the tenant's username,
case-sensitive exact match.  Stated over any record type via an owner
projection; used only to compare the code's readers against the spec. -/
def specOwnershipFilter (activeTenant : Option User) (table : List α)
    (owner : α → String) : List α :=
  match activeTenant with
  | none => []
  | some t =>
      if t.role == ROLE_ADMIN then []
      else table.filter (fun r => owner r == t.username)

/-- Is a remote field a non-empty array?  This is exactly the
`val && Array.isArray(val) && val.length > 0` guard of `saveIfValid`. -/
def isNonemptyArr : RValue α → Bool
  | .arr xs => !xs.isEmpty
  | _ => false

-- Sample tenants and caches used by the concrete witnesses below.

/-- A registered, approved sample tenant. -/
def acme : User :=
  { id := "user_7", companyName := "Acme", username := "Acme"
    contactPerson := "Ann", password := "pw", role := ROLE_USER
    status := "Approved" }

/-- A second registered tenant, used as foreign data. -/
def bolt : User :=
  { id := "user_8", companyName := "Bolt", username := "Bolt"
    contactPerson := "Bob", password := "pw2", role := ROLE_USER
    status := "Approved" }

/-- An inventory row owned by Acme: 10 units of "Widget A". -/
def widgetA : InvItem :=
  { id := "inv_1", owner := "Acme", itemName := "Widget A"
    quantity := 10, avgCost := 2 }

/-- An inventory row owned by Bolt. -/
def boltItem : InvItem :=
  { id := "inv_2", owner := "Bolt", itemName := "Cable"
    quantity := 3, avgCost := 1 }

/-- A sale owned by Acme with total 30. -/
def acmeSale : Sale :=
  { id := "sale_1", owner := "Acme", date := "1", itemName := "Widget A"
    quantity := 3, price := 10, total := 30 }

/-- An expense owned by Acme of amount 12. -/
def acmeExpense : Expense :=
  { id := "exp_1", owner := "Acme", name := "Rent", amount := 12
    date := "1" }

/-- A cache with Acme logged in, mixed-owner tables, no cloud URL. -/
def acmeCache : Cache :=
  { users := [INITIAL_ADMIN, acme, bolt]
    inventory := [boltItem, widgetA]
    sales := [acmeSale]
    purchases := []
    expenses := [acmeExpense]
    currentUser := some acme
    banner := "", verticalBanner := "", cloudUrl := "" }

/-- The same data with nobody logged in. -/
def loggedOutCache : Cache :=
  { acmeCache with currentUser := none }

/-- The same data with a cloud URL configured. -/
def cloudCache : Cache :=
  { acmeCache with cloudUrl := "https://sheet.example/exec" }

/-- A remote snapshot whose users table is an empty array, whose
inventory is three records, and whose other fields are absent or
malformed (the spec's scenario plus the not-an-array case). -/
def scenarioSnap : Snapshot :=
  { ims_users := .arr []
    ims_inventory := .arr
      [{ id := "r1", owner := "Acme", itemName := "X", quantity := 1, avgCost := 1 },
       { id := "r2", owner := "Acme", itemName := "Y", quantity := 2, avgCost := 1 },
       { id := "r3", owner := "Bolt", itemName := "Z", quantity := 3, avgCost := 1 }]
    ims_sales := .missing
    ims_purchases := .nonArray
    ims_expenses := .missing
    ims_banner := none
    ims_vertical_banner := none }

/-- A successful remote users table that lacks the admin_001 record. -/
def adminlessSnap : Snapshot :=
  { ims_users := .arr [acme, bolt]
    ims_inventory := .missing
    ims_sales := .missing
    ims_purchases := .missing
    ims_expenses := .missing
    ims_banner := none
    ims_vertical_banner := none }

/-- The Acme cache with its inventory emptied. -/
def emptyInvCache : Cache := { acmeCache with inventory := [] }

/-- One addStock of 4 Widget A from the empty-inventory state. -/
def stockedCache : Cache :=
  (addStock emptyInvCache "V" "Phones" "Widget" "A" 4 2 "Cash" 7).fst

/-- A cache with the privileged tenant logged in and owning a row. -/
def adminCache : Cache :=
  { acmeCache with
      currentUser := some INITIAL_ADMIN
      inventory := [{ id := "inv_9", owner := "Admin", itemName := "Widget A",
                      quantity := 5, avgCost := 2 }] }

/-- Cache states reachable from an empty-inventory state by changing the
active tenant, adding stock with a non-negative quantity, and processing
sales with arbitrary arguments.  The non-negativity restriction on the
addStock quantity is the amendment to claim C5 forced by
the counterexample below: the code does not validate it. -/
inductive Reachable : Cache → Prop where
  | init (c : Cache) (h : c.inventory = []) : Reachable c
  | login (c : Cache) (u : Option User) (h : Reachable c) :
      Reachable { c with currentUser := u }
  | stock (c : Cache) (vendor category brand model : String) (q : Int)
      (cost : ℚ) (pt : String) (now : Nat) (hq : 0 ≤ q) (h : Reachable c) :
      Reachable (addStock c vendor category brand model q cost pt now).fst
  | sale (c : Cache) (n : String) (q : Int) (p : ℚ) (now : Nat)
      (h : Reachable c) :
      Reachable (processSale c n q p now).fst

-- ## Helper lemmas

lemma saveIfValid_of_not_nonempty (cur : List α) (v : RValue α)
    (h : isNonemptyArr v = false) : saveIfValid cur v = cur := by
  cases v with
  | missing => rfl
  | nonArray => rfl
  | arr xs =>
      simp [isNonemptyArr] at h
      simp [saveIfValid, h]

lemma saveIfValid_of_nonempty (cur : List α) (xs : List α) (h : xs ≠ []) :
    saveIfValid cur (.arr xs) = xs := by
  simp [saveIfValid, List.length_pos.mpr h]

lemma foldl_add_sum (g : α → ℚ) (l : List α) (a : ℚ) :
    l.foldl (fun sum x => sum + g x) a = a + (l.map g).sum := by
  induction l generalizing a with
  | nil => simp
  | cons x xs ih => simp [ih, add_assoc]

lemma mem_updateFirst_of_find? (p : α → Bool) (f : α → α) :
    ∀ (l : List α) (a x : α), l.find? p = some a → x ∈ updateFirst p f l →
      x ∈ l ∨ x = f a := by
  intro l
  induction l with
  | nil =>
      intro a x hfind hx
      simp [updateFirst] at hx
  | cons b bs ih =>
      intro a x hfind hx
      by_cases hb : p b = true
      · rw [List.find?_cons_of_pos _ hb] at hfind
        obtain rfl : b = a := by injection hfind
        simp only [updateFirst, hb, if_true] at hx
        rcases List.mem_cons.mp hx with rfl | hx2
        · exact Or.inr rfl
        · exact Or.inl (List.mem_cons_of_mem _ hx2)
      · rw [List.find?_cons_of_neg _ hb] at hfind
        simp only [updateFirst, hb, if_false] at hx
        rcases List.mem_cons.mp hx with rfl | hx2
        · exact Or.inl (List.mem_cons_self _ _)
        · rcases ih a x hfind hx2 with h1 | h1
          · exact Or.inl (List.mem_cons_of_mem _ h1)
          · exact Or.inr h1

lemma addStock_inventory_nonneg (c : Cache) (v cat b m : String) (q : Int)
    (cost : ℚ) (pt : String) (now : Nat) (hq : 0 ≤ q)
    (hc : ∀ i ∈ c.inventory, 0 ≤ i.quantity) :
    ∀ i ∈ (addStock c v cat b m q cost pt now).fst.inventory, 0 ≤ i.quantity := by
  intro i hi
  cases hu : c.currentUser with
  | none =>
      simp only [addStock, hu] at hi
      exact hc i hi
  | some user =>
      cases hf : c.inventory.find? (invMatch user.username (b ++ " " ++ m)) with
      | some a =>
          simp only [addStock, hu, hf] at hi
          rcases mem_updateFirst_of_find? _ _ _ _ _ hf hi with h1 | rfl
          · exact hc i h1
          · exact add_nonneg (hc a (List.mem_of_find?_eq_some hf)) hq
      | none =>
          simp only [addStock, hu, hf] at hi
          rcases List.mem_append.mp hi with h1 | h1
          · exact hc i h1
          · rw [List.mem_singleton] at h1
            subst h1
            exact hq

lemma processSale_inventory_nonneg (c : Cache) (n : String) (q : Int) (p : ℚ)
    (now : Nat) (hc : ∀ i ∈ c.inventory, 0 ≤ i.quantity) :
    ∀ i ∈ (processSale c n q p now).fst.inventory, 0 ≤ i.quantity := by
  intro i hi
  cases hu : c.currentUser with
  | none =>
      simp only [processSale, hu] at hi
      exact hc i hi
  | some user =>
      cases hf : c.inventory.find? (invMatch user.username n) with
      | none =>
          simp only [processSale, hu, hf] at hi
          exact hc i hi
      | some a =>
          by_cases hlt : a.quantity < q
          · simp only [processSale, hu, hf, if_pos hlt] at hi
            exact hc i hi
          · simp only [processSale, hu, hf, if_neg hlt] at hi
            rcases mem_updateFirst_of_find? _ _ _ _ _ hf hi with h1 | rfl
            · exact hc i h1
            · exact sub_nonneg.mpr (not_lt.mp hlt)

lemma filter_updateFirst (pr keep : α → Bool) (f : α → α)
    (hfk : ∀ x, keep (f x) = keep x)
    (hpk : ∀ x, pr x = true → keep x = true) :
    ∀ l : List α, (updateFirst pr f l).filter keep = updateFirst pr f (l.filter keep) := by
  intro l
  induction l with
  | nil => rfl
  | cons a as ih =>
      cases hpr : pr a with
      | true =>
          have hk := hpk a hpr
          simp [updateFirst, hpr, List.filter_cons, hk, hfk a]
      | false =>
          cases hk : keep a with
          | true => simp [updateFirst, hpr, List.filter_cons, hk, ih]
          | false => simp [updateFirst, hpr, List.filter_cons, hk, ih]

-- ## C1: the four owned-table reads implement the spec's Ownership Filter

/-- C1.  Each owned-table read (getInventory, getSales, getPurchases,
getExpenses) returns exactly the spec's ownership filter of the raw
table: empty when no tenant is active or the active tenant has the
privileged Admin role, otherwise the subsequence whose owner equals the
active tenant's username by case-sensitive exact match. -/
theorem reads_use_ownership_filter (c : Cache) :
    getInventory c = specOwnershipFilter c.currentUser c.inventory InvItem.owner ∧
    getSales c = specOwnershipFilter c.currentUser c.sales Sale.owner ∧
    getPurchases c = specOwnershipFilter c.currentUser c.purchases Purchase.owner ∧
    getExpenses c = specOwnershipFilter c.currentUser c.expenses Expense.owner := by
  unfold getInventory getSales getPurchases getExpenses specOwnershipFilter
  cases c.currentUser <;> simp

-- ## C10: the financial summary sums the ownership-filtered ledgers

/-- C10.  getFinancialSummary returns the sum of the totals of the
ownership-filtered sales, the sum of the amounts of the
ownership-filtered expenses, and their difference as netProfit; all
three are zero when no tenant is active or the active tenant is the
privileged one. -/
theorem getFinancialSummary_spec (c : Cache) :
    (getFinancialSummary c).totalSales = ((getSales c).map Sale.total).sum ∧
    (getFinancialSummary c).totalExpenses = ((getExpenses c).map Expense.amount).sum ∧
    (getFinancialSummary c).netProfit =
      ((getSales c).map Sale.total).sum - ((getExpenses c).map Expense.amount).sum ∧
    ((c.currentUser = none ∨ ∃ u, c.currentUser = some u ∧ u.role = ROLE_ADMIN) →
      getFinancialSummary c = ⟨0, 0, 0⟩) := by
  refine ⟨by simp [getFinancialSummary, foldl_add_sum],
          by simp [getFinancialSummary, foldl_add_sum],
          by simp [getFinancialSummary, foldl_add_sum], ?_⟩
  intro h
  have hs : getSales c = [] := by
    rcases h with h | ⟨u, hu, hr⟩
    · simp [getSales, h]
    · simp [getSales, hu, hr]
  have he : getExpenses c = [] := by
    rcases h with h | ⟨u, hu, hr⟩
    · simp [getExpenses, h]
    · simp [getExpenses, hu, hr]
  simp [getFinancialSummary, hs, he]

/-- Witness for C10 at a concrete cache with nobody logged in. -/
theorem getFinancialSummary_spec_witness :
    getFinancialSummary loggedOutCache = ⟨0, 0, 0⟩ :=
  (getFinancialSummary_spec loggedOutCache).2.2.2 (Or.inl rfl)

-- ## C3: syncDown never erases a local table on empty/absent remote data

/-- C3.  On a successful remote snapshot, syncDown leaves a local record
table unchanged whenever the remote payload for that table is absent,
not an array, or an empty array — it never replaces a non-empty local
table with an empty one. -/
theorem syncDown_keeps_local_on_empty_remote (c : Cache) (data : Snapshot) :
    (isNonemptyArr data.ims_users = false →
      (syncDown c (.success data)).fst.users = c.users) ∧
    (isNonemptyArr data.ims_inventory = false →
      (syncDown c (.success data)).fst.inventory = c.inventory) ∧
    (isNonemptyArr data.ims_sales = false →
      (syncDown c (.success data)).fst.sales = c.sales) ∧
    (isNonemptyArr data.ims_purchases = false →
      (syncDown c (.success data)).fst.purchases = c.purchases) ∧
    (isNonemptyArr data.ims_expenses = false →
      (syncDown c (.success data)).fst.expenses = c.expenses) := by
  by_cases hurl : c.cloudUrl = ""
  · refine ⟨?_, ?_, ?_, ?_, ?_⟩ <;> intro h <;> simp [syncDown, hurl]
  · refine ⟨?_, ?_, ?_, ?_, ?_⟩ <;> intro h <;>
      simp [syncDown, hurl, saveIfValid_of_not_nonempty _ _ h]

/-- Witness for C3: the empty remote users array and the absent sales
field leave the non-empty local tables untouched. -/
theorem syncDown_keeps_local_on_empty_remote_witness :
    (syncDown cloudCache (.success scenarioSnap)).fst.users = cloudCache.users ∧
    (syncDown cloudCache (.success scenarioSnap)).fst.sales = cloudCache.sales ∧
    (syncDown cloudCache (.success scenarioSnap)).fst.purchases = cloudCache.purchases := by
  have h := syncDown_keeps_local_on_empty_remote cloudCache scenarioSnap
  exact ⟨h.1 rfl, h.2.2.1 rfl, h.2.2.2.1 rfl⟩

-- ## C4: syncDown replaces a local table when the remote one is non-empty

/-- C4.  On a successful remote snapshot with a configured URL, every
record table whose remote payload is a non-empty array is replaced
wholesale by the remote array, whatever the local table held. -/
theorem syncDown_replaces_on_nonempty_remote (c : Cache) (data : Snapshot)
    (hurl : c.cloudUrl ≠ "") :
    (∀ xs, data.ims_users = .arr xs → xs ≠ [] →
      (syncDown c (.success data)).fst.users = xs) ∧
    (∀ xs, data.ims_inventory = .arr xs → xs ≠ [] →
      (syncDown c (.success data)).fst.inventory = xs) ∧
    (∀ xs, data.ims_sales = .arr xs → xs ≠ [] →
      (syncDown c (.success data)).fst.sales = xs) ∧
    (∀ xs, data.ims_purchases = .arr xs → xs ≠ [] →
      (syncDown c (.success data)).fst.purchases = xs) ∧
    (∀ xs, data.ims_expenses = .arr xs → xs ≠ [] →
      (syncDown c (.success data)).fst.expenses = xs) := by
  refine ⟨?_, ?_, ?_, ?_, ?_⟩ <;> intro xs hx hne <;>
    simp [syncDown, hurl, hx, saveIfValid_of_nonempty _ _ hne]

/-- Witness for C4: the three-record remote inventory replaces the local
two-record one (the spec's scenario). -/
theorem syncDown_replaces_on_nonempty_remote_witness :
    (syncDown cloudCache (.success scenarioSnap)).fst.inventory =
      [{ id := "r1", owner := "Acme", itemName := "X", quantity := 1, avgCost := 1 },
       { id := "r2", owner := "Acme", itemName := "Y", quantity := 2, avgCost := 1 },
       { id := "r3", owner := "Bolt", itemName := "Z", quantity := 3, avgCost := 1 }] := by
  have h := syncDown_replaces_on_nonempty_remote cloudCache scenarioSnap
    (by simp [cloudCache, acmeCache])
  exact h.2.1 _ rfl (by simp)

-- ## C9: with no cloud URL, syncDown fails fast and pushRecord is a no-op

/-- C9.  When the configured cloud URL is empty, syncDown returns the
not-configured failure and the unchanged cache whatever any fetch would
have answered (so no request is observable), and pushRecord issues no
request and changes nothing. -/
theorem noUrl_sync_noop (c : Cache) (h : c.cloudUrl = "") :
    (∀ resp, syncDown c resp =
      (c, { success := false, message := "No Cloud URL configured" })) ∧
    (∀ key, pushRecord c key = (c, none)) := by
  refine ⟨fun resp => ?_, fun key => ?_⟩
  · simp [syncDown, h]
  · simp [pushRecord, h]

/-- Witness for C9 at a concrete cache whose URL is empty. -/
theorem noUrl_sync_noop_witness :
    syncDown acmeCache (.error "boom") =
      (acmeCache, { success := false, message := "No Cloud URL configured" }) ∧
    pushRecord acmeCache "ims_sales" = (acmeCache, none) :=
  ⟨(noUrl_sync_noop acmeCache rfl).1 _, (noUrl_sync_noop acmeCache rfl).2 _⟩

-- ## C7: registration rejects case-insensitive duplicates, else appends one Pending tenant

/-- C7.  When the requested company name equals an existing username up
to letter case, register rejects the request as a duplicate and leaves
the cache unchanged; otherwise it appends exactly one new tenant whose
username is the company name, with role User and status Pending. -/
theorem register_spec (c : Cache) (companyName contactPerson password : String)
    (now : Nat) :
    (c.users.any (fun u => lowerStr u.username == lowerStr companyName) = true →
      register c companyName contactPerson password now =
        (c, { success := false, message := "Company Name already registered" })) ∧
    (c.users.any (fun u => lowerStr u.username == lowerStr companyName) = false →
      register c companyName contactPerson password now =
        ({ c with users := c.users ++
            [{ id := "user_" ++ toString now, companyName := companyName,
               username := companyName, contactPerson := contactPerson,
               password := password, role := ROLE_USER, status := "Pending" }] },
         { success := true,
           message := "Registration successful! Wait for Admin approval." })) := by
  constructor <;> intro h
  · have hsome : (c.users.find? (fun u => lowerStr u.username == lowerStr companyName)).isSome := by
      rw [List.find?_isSome]
      simpa using List.any_eq_true.mp h
    obtain ⟨u, hu⟩ := Option.isSome_iff_exists.mp hsome
    simp only [register, hu]
  · have hnone : c.users.find? (fun u => lowerStr u.username == lowerStr companyName) = none := by
      rw [List.find?_eq_none]
      intro x hx
      have := List.any_eq_false.mp h x hx
      simpa using this
    simp only [register, hnone]

/-- Witness for C7: re-registering Acme in a different case is rejected
with the cache unchanged, and a fresh name is appended as Pending. -/
theorem register_spec_witness :
    register acmeCache "ACME" "Al" "secret" 42 =
      (acmeCache, { success := false, message := "Company Name already registered" }) ∧
    (register acmeCache "NewCo" "Ned" "pw9" 42).fst.users =
      acmeCache.users ++
        [{ id := "user_42", companyName := "NewCo", username := "NewCo",
           contactPerson := "Ned", password := "pw9", role := ROLE_USER,
           status := "Pending" }] := by
  have h1 := (register_spec acmeCache "ACME" "Al" "secret" 42).1 (by decide)
  have h2 := (register_spec acmeCache "NewCo" "Ned" "pw9" 42).2 (by decide)
  refine ⟨h1, ?_⟩
  rw [h2]
  decide

-- ## C2: processSale rejects insufficient stock without mutation, else sells

/-- C2.  With an active tenant: when no inventory row matches or the
requested quantity exceeds the matching row's stock, processSale
returns the Insufficient Stock failure and the cache completely
unchanged; when the quantity is at most the stock, it decrements that
row by exactly the sold quantity and appends exactly one sale record
with total = quantity * price owned by the active tenant, touching no
other table. -/
theorem processSale_spec (c : Cache) (u : User) (itemName : String)
    (q : Int) (price : ℚ) (now : Nat) (hu : c.currentUser = some u) :
    match c.inventory.find? (invMatch u.username itemName) with
    | none =>
        processSale c itemName q price now =
          (c, { success := false, message := "Insufficient Stock" })
    | some item =>
        (item.quantity < q →
          processSale c itemName q price now =
            (c, { success := false, message := "Insufficient Stock" })) ∧
        (q ≤ item.quantity →
          processSale c itemName q price now =
            ({ c with
                inventory := updateFirst (invMatch u.username itemName)
                  (fun i => { i with quantity := i.quantity - q }) c.inventory
                sales := c.sales ++
                  [{ id := "sale_" ++ toString now, owner := u.username,
                     date := toString now, itemName := itemName, quantity := q,
                     price := price, total := q * price }] },
             { success := true, message := "" })) := by
  cases hf : c.inventory.find? (invMatch u.username itemName) with
  | none =>
      simp only [processSale, hu, hf]
  | some item =>
      constructor <;> intro hq
      · simp only [processSale, hu, hf, if_pos hq]
      · simp only [processSale, hu, hf, if_neg (not_lt.mpr hq)]

/-- Witness for C2, the spec's scenario: Acme holds 10 Widget A; selling
12 fails leaving the cache unchanged; selling 4 at price 5 leaves
quantities [3, 6] and sale totals [30, 20]. -/
theorem processSale_spec_witness :
    processSale acmeCache "Widget A" 12 5 99 =
      (acmeCache, { success := false, message := "Insufficient Stock" }) ∧
    (processSale acmeCache "Widget A" 4 5 99).fst.inventory.map InvItem.quantity = [3, 6] ∧
    (processSale acmeCache "Widget A" 4 5 99).fst.sales.map Sale.total = [30, 20] := by
  have h12 := processSale_spec acmeCache acme "Widget A" 12 5 99 rfl
  have h4 := processSale_spec acmeCache acme "Widget A" 4 5 99 rfl
  refine ⟨h12.1 (by decide), ?_, ?_⟩
  · rw [h4.2 (by decide)]
    decide
  · rw [h4.2 (by decide)]
    norm_num [acmeCache, acmeSale]

-- ## C5: inventory quantities stay non-negative (amended: addStock quantity ≥ 0)

/-- C5 (amended).  Every state reachable from an empty-inventory state by
tenant changes, addStock with non-negative quantity, and processSale with
arbitrary arguments has only non-negative inventory quantities: addStock
with a non-negative amount never drives a quantity negative, and
processSale rejects any sale that would.  (The restriction of addStock to
non-negative quantities is forced by the counterexample: the code does
not validate the added amount.) -/
theorem reachable_inventory_nonneg (c : Cache) (h : Reachable c) :
    ∀ i ∈ c.inventory, 0 ≤ i.quantity := by
  induction h with
  | init c hc =>
      intro i hi
      rw [hc] at hi
      exact absurd hi (List.not_mem_nil i)
  | login c u h ih => exact ih
  | stock c v cat b m q cost pt now hq h ih =>
      exact addStock_inventory_nonneg c v cat b m q cost pt now hq ih
  | sale c n q p now h ih =>
      exact processSale_inventory_nonneg c n q p now ih

/-- Witness for C5 (amended): the state after one addStock of 4 units is
reachable and all its quantities are non-negative. -/
theorem reachable_inventory_nonneg_witness :
    stockedCache.inventory.all (fun i => decide (0 ≤ i.quantity)) = true := by
  have h := reachable_inventory_nonneg stockedCache
    (Reachable.stock emptyInvCache "V" "Phones" "Widget" "A" 4 2 "Cash" 7
      (by decide) (Reachable.init emptyInvCache rfl))
  rw [List.all_eq_true]
  intro i hi
  exact decide_eq_true (h i hi)

/-- C5 counterexample: addStock performs no validation of the added
amount, so a single addStock of -1 from an empty-inventory state — a
state reachable by one unrestricted addStock — creates an inventory row
with negative quantity. -/
theorem inventory_nonneg_counterexample :
    ∃ i ∈ (addStock emptyInvCache "V" "Phones" "Widget" "A" (-1) 2 "Cash" 5).fst.inventory,
      i.quantity < 0 := by decide

-- ## C6: the privileged tenant after initStorage (amended: not preserved by syncDown)

/-- C6 (amended).  After every cache initialization, whatever the prior
stored state, the users table contains exactly one record with the
reserved id admin_001 — the built-in INITIAL_ADMIN credentials — and it
sits at the head of the table.  (The claim's further assertion that this
uniqueness is preserved by every subsequent operation fails for
syncDown's replacement of the users table; see the counterexample.) -/
theorem initStorage_admin_unique (c : Cache) :
    (initStorage c).users.filter (fun u => u.id == "admin_001") = [INITIAL_ADMIN] ∧
    (initStorage c).users.head? = some INITIAL_ADMIN := by
  have key : ∀ l : List User,
      (l.filter (fun u => u.id != "admin_001")).filter
        (fun u => u.id == "admin_001") = [] := by
    intro l
    induction l with
    | nil => rfl
    | cons a as ih =>
        cases hb : a.id == "admin_001" with
        | true => simp [List.filter_cons, hb, bne, ih]
        | false => simp [List.filter_cons, hb, bne, ih]
  constructor
  · show (INITIAL_ADMIN :: c.users.filter (fun u => u.id != "admin_001")).filter
        (fun u => u.id == "admin_001") = [INITIAL_ADMIN]
    rw [List.filter_cons]
    simp only [key c.users]
    decide
  · rfl

/-- C6 counterexample: initStorage establishes the unique admin_001
record, but a subsequent syncDown replaces the users table with a remote
array lacking it, so the uniqueness is not preserved by startup
reconciliation. -/
theorem admin_unique_counterexample :
    (initStorage cloudCache).users.filter (fun u => u.id == "admin_001") =
      [INITIAL_ADMIN] ∧
    (syncDown (initStorage cloudCache) (.success adminlessSnap)).fst.users.filter
      (fun u => u.id == "admin_001") = [] := by decide

-- ## C8: addStock then getInventory (amended: for a non-privileged tenant)

/-- C8 (amended).  For an active non-privileged tenant: addStock appends
exactly one purchase record; if a row matching (owner, itemName) —
itemName case-insensitively — already existed, getInventory afterwards is
the previous view with the first itemName-matching row's quantity
incremented by the added amount; otherwise it is the previous view with
the freshly created row (given quantity, cost as avgCost) appended.  (The
restriction to a non-privileged tenant is forced by the counterexample:
for the Admin-role tenant getInventory shows nothing.) -/
theorem addStock_getInventory_spec (c : Cache) (u : User)
    (vendor category brand model : String) (q : Int) (cost : ℚ)
    (pt : String) (now : Nat)
    (hu : c.currentUser = some u) (hrole : u.role ≠ ROLE_ADMIN) :
    (addStock c vendor category brand model q cost pt now).fst.purchases =
      c.purchases ++
        [{ id := "pur_" ++ toString now, owner := u.username, date := toString now,
           vendor := vendor, category := category, brand := brand, model := model,
           itemName := brand ++ " " ++ model, quantity := q, cost := cost,
           paymentType := pt }] ∧
    (match c.inventory.find? (invMatch u.username (brand ++ " " ++ model)) with
     | some _ =>
        getInventory (addStock c vendor category brand model q cost pt now).fst =
          updateFirst (invMatch u.username (brand ++ " " ++ model))
            (fun i => { i with quantity := i.quantity + q }) (getInventory c)
     | none =>
        getInventory (addStock c vendor category brand model q cost pt now).fst =
          getInventory c ++
            [{ id := "inv_" ++ toString now, owner := u.username,
               itemName := brand ++ " " ++ model, quantity := q,
               avgCost := cost }]) := by
  have hradm : (u.role == ROLE_ADMIN) = false := by
    simp only [beq_eq_false_iff_ne, ne_eq]
    exact hrole
  have hcu : (addStock c vendor category brand model q cost pt now).fst.currentUser = some u := by
    cases hf : c.inventory.find? (invMatch u.username (brand ++ " " ++ model)) <;>
      simp [addStock, hu, hf]
  have hview : ∀ d : Cache, d.currentUser = some u →
      getInventory d = d.inventory.filter (fun i => i.owner == u.username) := by
    intro d hd
    simp [getInventory, hd, hradm]
  have hpk : ∀ x : InvItem,
      invMatch u.username (brand ++ " " ++ model) x = true →
      (x.owner == u.username) = true := by
    intro x hx
    simp [invMatch] at hx
    simp [hx.1]
  constructor
  · simp [addStock, hu]
  · cases hf : c.inventory.find? (invMatch u.username (brand ++ " " ++ model)) with
    | some a =>
        have hinv : (addStock c vendor category brand model q cost pt now).fst.inventory =
            updateFirst (invMatch u.username (brand ++ " " ++ model))
              (fun i => { i with quantity := i.quantity + q }) c.inventory := by
          simp [addStock, hu, hf]
        rw [hview _ hcu, hview c hu, hinv]
        exact filter_updateFirst (invMatch u.username (brand ++ " " ++ model))
          (fun i => i.owner == u.username)
          (fun i => { i with quantity := i.quantity + q })
          (fun x => rfl) hpk c.inventory
    | none =>
        have hinv : (addStock c vendor category brand model q cost pt now).fst.inventory =
            c.inventory ++
              [{ id := "inv_" ++ toString now, owner := u.username,
                 itemName := brand ++ " " ++ model, quantity := q,
                 avgCost := cost }] := by
          simp [addStock, hu, hf]
        rw [hview _ hcu, hview c hu, hinv, List.filter_append]
        simp

/-- Witness for C8: Acme (non-privileged) adds 4 more Widget A; the
inventory view afterwards is the previous view with the first matching
row incremented, and one purchase record was appended. -/
theorem addStock_getInventory_spec_witness :
    getInventory (addStock acmeCache "V" "Phones" "Widget" "A" 4 2 "Cash" 7).fst =
      updateFirst (invMatch "Acme" "Widget A")
        (fun i => { i with quantity := i.quantity + 4 }) (getInventory acmeCache) ∧
    (addStock acmeCache "V" "Phones" "Widget" "A" 4 2 "Cash" 7).fst.purchases.length =
      acmeCache.purchases.length + 1 := by
  have h := addStock_getInventory_spec acmeCache acme "V" "Phones" "Widget" "A"
    4 2 "Cash" 7 rfl (by decide)
  refine ⟨h.2, ?_⟩
  rw [h.1]
  simp

/-- C8 counterexample: with the privileged tenant active and a matching
row present, addStock increments the raw row (5 becomes 8) but the
subsequent getInventory for that tenant returns the empty view, not the
incremented item. -/
theorem addStock_admin_counterexample :
    (adminCache.inventory.find? (invMatch INITIAL_ADMIN.username "Widget A")).isSome = true ∧
    (addStock adminCache "V" "Phones" "Widget" "A" 3 2 "Cash" 11).fst.inventory.map
      InvItem.quantity = [8] ∧
    getInventory (addStock adminCache "V" "Phones" "Widget" "A" 3 2 "Cash" 11).fst = [] := by
  decide

end BMS
